import Mathlib

-- Verification of the chat-server presence and message pipeline.
-- The definitions below are a shallow embedding of the socket handlers and
-- HTTP routes of the server (join, send_message, update_status, typing,
-- disconnect, the edit route and the history route), together with the
-- MongoDB collections they touch (messages, users, fcm tokens).

namespace ChatServer

-- JavaScript truthiness of an optional string value: undefined and the
-- empty string are falsy, every other string is truthy.
def jsTruthy : Option String → Bool
  | none => false
  | some s => s ≠ ""

-- The value of a JavaScript expression of the form  v || dflt .
def jsOr (o : Option String) (dflt : String) : String :=
  match o with
  | none => dflt
  | some s => if s = "" then dflt else s

-- One live socket connection: its id, the userId written by the join
-- handler (socket.data.userId) and the set of rooms it has joined
-- (socket.join adds a room, a socket can be in several rooms).
structure Conn where
  id : Nat
  userId : Option String := none
  rooms : List String := []
deriving Repr, DecidableEq

-- A document of the users collection (UserSchema).
structure UserRec where
  fcmToken : Option String := none
  isOnline : Bool
  lastSeen : Nat
deriving Repr, DecidableEq

-- A document of the messages collection (MessageSchema), with the schema
-- defaults for seen, status, viewOnce, edited and roomId applied.
structure StoredMessage where
  docId : String
  text : Option String := none
  senderId : Option String := none
  timestamp : Option Nat := none
  seen : Bool := false
  status : String := "sent"
  mediaUrl : Option String := none
  mediaType : Option String := none
  viewOnce : Bool := false
  replyToMessageId : Option String := none
  replyToText : Option String := none
  replyToSender : Option String := none
  replyToMediaUrl : Option String := none
  replyToMediaType : Option String := none
  edited : Bool := false
  editedAt : Option Nat := none
  originalText : Option String := none
  localId : Option String := none
  roomId : String := "room1"
deriving Repr, DecidableEq

-- The wire payload of a send_message event: every field is optional,
-- the client may omit any of them.
structure MsgData where
  docId : Option String := none
  text : Option String := none
  senderId : Option String := none
  timestamp : Option Nat := none
  seen : Option Bool := none
  status : Option String := none
  mediaUrl : Option String := none
  mediaType : Option String := none
  viewOnce : Option Bool := none
  replyToMessageId : Option String := none
  replyToText : Option String := none
  replyToSender : Option String := none
  replyToMediaUrl : Option String := none
  replyToMediaType : Option String := none
  edited : Option Bool := none
  editedAt : Option Nat := none
  originalText : Option String := none
  localId : Option String := none
  roomId : Option String := none
deriving Repr, DecidableEq

-- Events emitted over the socket layer.
inductive Event where
  | presence_update (userId : String) (isOnline : Bool)
  | new_message (docId : Option String) (text : Option String) (senderId : Option String)
  | message_sent (docId : Option String) (localId : Option String) (status : String)
  | status_updated (docId : String) (status : String)
  | partner_typing (userId : Option String) (isTyping : Bool)
  | message_edited (docId : String) (newText : String) (editedAt : Nat)
deriving Repr, DecidableEq

-- One emission: the event together with the connection ids it is delivered
-- to, resolved against the connection/room state at emission time.
structure TEv where
  ev : Event
  receivers : List Nat
deriving Repr, DecidableEq

-- The whole server state the handlers touch: live connections, the users
-- collection, the messages collection, the keys bridged to the secondary
-- store, and the fcm token documents (receiverId, token).
structure ServerState where
  conns : List Conn := []
  users : List (String × UserRec) := []
  msgs : List StoredMessage := []
  fsBridged : List (String × String) := []
  tokens : List (String × String) := []
deriving Repr, DecidableEq

-- users collection lookup by userId.
def userLookup (users : List (String × UserRec)) (u : String) : Option UserRec :=
  (users.find? (fun p => p.1 == u)).map (fun p => p.2)

-- User.findOneAndUpdate({userId}, {isOnline, lastSeen}, {upsert?}):
-- updates the two fields of the matching document, inserting a fresh
-- document only when upsert is set.
def userUpdate (users : List (String × UserRec)) (u : String)
    (onl : Bool) (now : Nat) (upsert : Bool) : List (String × UserRec) :=
  if (users.find? (fun p => p.1 == u)).isSome then
    users.map (fun p => if p.1 == u then (p.1, { p.2 with isOnline := onl, lastSeen := now }) else p)
  else if upsert then users ++ [(u, { fcmToken := none, isOnline := onl, lastSeen := now })]
  else users

-- The sockets currently in a room (io.in(room).fetchSockets()).
def roomMembers (conns : List Conn) (r : String) : List Conn :=
  conns.filter (fun c => c.rooms.contains r)

-- Recipients of io.to(room).emit: every socket in the room, the sender
-- included; io.to(undefined) reaches nobody.
def roomRecipients (conns : List Conn) : Option String → List Nat
  | some r => (roomMembers conns r).map (fun c => c.id)
  | none => []

-- Recipients of socket.to(room).emit: every socket in the room except the
-- emitting socket itself.
def roomRecipientsExcept (conns : List Conn) (r : String) (cid : Nat) : List Nat :=
  ((roomMembers conns r).filter (fun c => c.id ≠ cid)).map (fun c => c.id)

-- new Message(data): applies the schema defaults; docId is required and,
-- being a String path, fails validation when missing or empty.
def mkStored (d : MsgData) : Option StoredMessage :=
  match d.docId with
  | none => none
  | some i =>
    if i = "" then none
    else some {
      docId := i
      text := d.text
      senderId := d.senderId
      timestamp := d.timestamp
      seen := d.seen.getD false
      status := d.status.getD "sent"
      mediaUrl := d.mediaUrl
      mediaType := d.mediaType
      viewOnce := d.viewOnce.getD false
      replyToMessageId := d.replyToMessageId
      replyToText := d.replyToText
      replyToSender := d.replyToSender
      replyToMediaUrl := d.replyToMediaUrl
      replyToMediaType := d.replyToMediaType
      edited := d.edited.getD false
      editedAt := d.editedAt
      originalText := d.originalText
      localId := d.localId
      roomId := d.roomId.getD "room1" }

-- Outcome of the admin.messaging().send call inside sendFCM.
inductive FcmResult where
  | delivered
  | transientError
  | invalidToken
deriving Repr, DecidableEq

-- sendFCM(senderId, receiverId, text): looks up the receiver token
-- document; without a truthy token it logs and returns.  Every send error
-- is caught and logged; a permanent token error additionally deletes the
-- token document.  It never throws to its caller.
def sendFCM (tokens : List (String × String)) (receiverId : String)
    (outcome : FcmResult) : List (String × String) :=
  match tokens.find? (fun p => p.1 == receiverId) with
  | none => tokens
  | some p =>
    if p.2 = "" then tokens
    else
      match outcome with
      | .delivered => tokens
      | .transientError => tokens
      | .invalidToken => tokens.filter (fun q => q.1 ≠ receiverId)

-- A new transport connection: the socket is registered with no user and
-- no rooms bound.
def connectHandler (s : ServerState) (cid : Nat) : ServerState :=
  { s with conns := s.conns ++ [{ id := cid }] }

-- The join handler: socket.join(roomId), socket.data.userId = userId,
-- upsert the user online, broadcast presence_update{userId, true} to the
-- room (sender excluded), then reply to the joiner with one
-- presence_update{partnerId, true} for every other truthy userId found on
-- the sockets currently in the room.
def joinHandler (s : ServerState) (cid : Nat) (userId roomId : String)
    (now : Nat) : ServerState × List TEv :=
  let conns := s.conns.map (fun c =>
    if c.id == cid then
      { c with userId := some userId,
               rooms := if c.rooms.contains roomId then c.rooms else c.rooms ++ [roomId] }
    else c)
  let users := userUpdate s.users userId true now true
  let announce : TEv := ⟨.presence_update userId true, roomRecipientsExcept conns roomId cid⟩
  let sockets := roomMembers conns roomId
  let onlineUsers :=
    ((sockets.map (fun c => c.userId)).filter
      (fun v => jsTruthy v && !(v == some userId))).filterMap id
  let recon := onlineUsers.map (fun v => (⟨.presence_update v true, [cid]⟩ : TEv))
  ({ s with conns := conns, users := users }, announce :: recon)

-- The send_message handler.  new Message(data).save() is a plain insert:
-- it throws on a missing or empty docId (required String path) and on a
-- duplicate docId (unique index); storeOk models the availability of the
-- primary store.  Any throw is caught and only logged.  On success the
-- handler immediately sets status delivered, broadcasts new_message to
-- io.to(data.roomId), acks the sender with message_sent{docId, localId,
-- sent}, best-effort bridges the document to the secondary store, and
-- finally calls sendFCM for the hard-coded other participant.
def sendMessageHandler (s : ServerState) (cid : Nat) (d : MsgData)
    (storeOk bridgeOk : Bool) (fcm : FcmResult) : ServerState × List TEv :=
  match mkStored d with
  | none => (s, [])
  | some m =>
    if !storeOk then (s, [])
    else if s.msgs.any (fun m0 => m0.docId == m.docId) then (s, [])
    else
      let msgs := (s.msgs ++ [m]).map (fun m0 =>
        if m0.docId == m.docId then { m0 with status := "delivered" } else m0)
      let bcast : TEv := ⟨.new_message d.docId d.text d.senderId, roomRecipients s.conns d.roomId⟩
      let ack : TEv := ⟨.message_sent d.docId d.localId "sent", [cid]⟩
      let fsBridged :=
        if bridgeOk then s.fsBridged ++ [(jsOr d.roomId "room1", m.docId)] else s.fsBridged
      let receiverId := if d.senderId == some "user1" then "user2" else "user1"
      let tokens := sendFCM s.tokens receiverId fcm
      ({ s with msgs := msgs, fsBridged := fsBridged, tokens := tokens }, [bcast, ack])

-- The update_status handler: set status (and seen when the status is
-- seen) on the matching message, then broadcast status_updated.
def updateStatusHandler (s : ServerState) (docId status roomId : String) : ServerState × List TEv :=
  let msgs := s.msgs.map (fun m =>
    if m.docId == docId then { m with status := status, seen := status == "seen" } else m)
  ({ s with msgs := msgs }, [⟨.status_updated docId status, roomRecipients s.conns (some roomId)⟩])

-- The typing handler: volatile relay to the room, sender excluded.
def typingHandler (s : ServerState) (cid : Nat) (roomId : String) (isTyping : Bool) : List TEv :=
  match s.conns.find? (fun c => c.id == cid) with
  | none => []
  | some c => [⟨.partner_typing c.userId isTyping, roomRecipientsExcept s.conns roomId cid⟩]

-- The disconnect handler.  The socket has already left the connection set
-- when the handler runs.  With a truthy socket.userId it fetches the
-- remaining sockets, keeps those with the same userId and a different id,
-- and returns early when any remain; otherwise it updates the user
-- document to offline (no upsert) and emits presence_update{userId,
-- false} to every connected socket.
def disconnectHandler (s : ServerState) (cid : Nat) (now : Nat) : ServerState × List TEv :=
  match s.conns.find? (fun c => c.id == cid) with
  | none => (s, [])
  | some c =>
    let conns := s.conns.filter (fun c2 => c2.id ≠ cid)
    if jsTruthy c.userId then
      let u := c.userId.getD ""
      let remaining := conns.filter (fun c2 => c2.userId == c.userId && c2.id ≠ cid)
      if remaining.length > 0 then ({ s with conns := conns }, [])
      else
        let users := userUpdate s.users u false now false
        ({ s with conns := conns, users := users },
         [⟨.presence_update u false, conns.map (fun c2 => c2.id)⟩])
    else ({ s with conns := conns }, [])

-- POST /api/messages/edit: 400 on a falsy docId or newText, 404 when the
-- message is missing; otherwise overwrite text, mark edited, stamp
-- editedAt and set originalText to the text the message carried just
-- before this edit, then broadcast message_edited to the room.
def editHandler (s : ServerState) (docId newText roomId : Option String)
    (now : Nat) : ServerState × List TEv :=
  if !(jsTruthy docId) || !(jsTruthy newText) then (s, [])
  else
    let i := docId.getD ""
    let t := newText.getD ""
    match s.msgs.find? (fun m => m.docId == i) with
    | none => (s, [])
    | some msg =>
      let msgs := s.msgs.map (fun m =>
        if m.docId == i then
          { m with text := some t, edited := true, editedAt := some now, originalText := msg.text }
        else m)
      ({ s with msgs := msgs },
       [⟨.message_edited i t now, roomRecipients s.conns (some (jsOr roomId "room1"))⟩])

-- Insertion sort by timestamp, newest first, for the history route sort.
def insertDesc (m : StoredMessage) : List StoredMessage → List StoredMessage
  | [] => [m]
  | m0 :: rest =>
    if m0.timestamp.getD 0 ≤ m.timestamp.getD 0 then m :: m0 :: rest
    else m0 :: insertDesc m rest

def sortDesc (l : List StoredMessage) : List StoredMessage :=
  l.foldr insertDesc []

-- GET /api/messages: filter by roomId (defaulting to room1), optionally by
-- timestamp < beforeTimestamp (skipped for a falsy value), sort newest
-- first and take the limit (a falsy limit means 30).
def historyFetch (s : ServerState) (roomId : Option String)
    (beforeTimestamp : Option Nat) (limit : Option Nat) : List StoredMessage :=
  let rm := jsOr roomId "room1"
  let q := s.msgs.filter (fun m =>
    m.roomId == rm &&
    (match beforeTimestamp with
     | some b =>
        if b = 0 then true
        else match m.timestamp with
             | some t => decide (t < b)
             | none => false
     | none => true))
  let lim := match limit with
             | some n => if n = 0 then 30 else n
             | none => 30
  (sortDesc q).take lim

-- Transport operations used to describe whole runs of the server.
inductive Op where
  | connect (cid : Nat)
  | join (cid : Nat) (userId roomId : String)
  | disconnect (cid : Nat)
deriving Repr, DecidableEq

def step (now : Nat) (s : ServerState) : Op → ServerState × List TEv
  | .connect cid => (connectHandler s cid, [])
  | .join cid u r => joinHandler s cid u r now
  | .disconnect cid => disconnectHandler s cid now

def runFrom (now : Nat) (s : ServerState) : List Op → ServerState × List TEv
  | [] => (s, [])
  | op :: rest =>
    let r := step now s op
    let r2 := runFrom now r.1 rest
    (r2.1, r.2 ++ r2.2)

-- How many emissions of event e are delivered to the connection obs.
def countTo (tr : List TEv) (obs : Nat) (e : Event) : Nat :=
  tr.countP (fun te => decide (te.ev = e ∧ obs ∈ te.receivers))

-- ========================================================================
-- Presence scenario states: an observer connection (id 0, user B) sits in
-- room r1 while user A opens and closes connections c1, ..., cN.
-- ========================================================================

def obsConn : Conn := { id := 0, userId := some "B", rooms := ["r1"] }

def aConn (i : Nat) : Conn := { id := i, userId := some "A", rooms := ["r1"] }

def aConns : List Nat → List Conn
  | [] => []
  | i :: rest => aConn i :: aConns rest

def presenceState (l : List Nat) (users : List (String × UserRec)) : ServerState :=
  { conns := obsConn :: aConns l, users := users }

-- Connect then join room r1 as user A, for each listed connection id.
def joinOps : List Nat → List Op
  | [] => []
  | i :: rest => Op.connect i :: Op.join i "A" "r1" :: joinOps rest

-- A full presence scenario: user A joins with each connection of js, then
-- the connections of ds disconnect, all watched by the observer.
def presenceRun (js ds : List Nat) (users : List (String × UserRec)) (now : Nat) :
    ServerState × List TEv :=
  runFrom now (presenceState [] users) (joinOps js ++ ds.map Op.disconnect)

-- ========================================================================
-- Message scenario fixtures: user1 holds connection 1 in room r1 and
-- submits messages with document id m1.
-- ========================================================================

def senderConn : Conn := { id := 1, userId := some "user1", rooms := ["r1"] }

def baseState : ServerState := { conns := [senderConn] }

def msgHi : MsgData :=
  { docId := some "m1", text := some "hi", senderId := some "user1", roomId := some "r1" }

def msgA : MsgData :=
  { docId := some "m1", text := some "a", senderId := some "user1", roomId := some "r1" }

def msgB : MsgData :=
  { docId := some "m1", text := some "b", senderId := some "user1", roomId := some "r1" }

def storedA : StoredMessage :=
  { docId := "m1", text := some "a", senderId := some "user1", roomId := "r1" }

def editState : ServerState := { conns := [senderConn], msgs := [storedA] }

-- The primary-store write of a submission fails when the document fails
-- schema validation, the store is down, or the unique docId index rejects
-- a duplicate insert.
def saveFails (s : ServerState) (d : MsgData) (storeOk : Bool) : Prop :=
  mkStored d = none ∨ storeOk = false ∨
    ∃ m, mkStored d = some m ∧ s.msgs.any (fun m0 => m0.docId == m.docId) = true

-- ========================================================================
-- Supporting lemmas
-- ========================================================================

theorem find?_map_userUpdate (users : List (String × UserRec)) (u : String)
    (onl : Bool) (now : Nat) :
    (users.map (fun p => if p.1 == u then (p.1, { p.2 with isOnline := onl, lastSeen := now }) else p)).find?
        (fun p => p.1 == u) =
      (users.find? (fun p => p.1 == u)).map
        (fun p => (p.1, { p.2 with isOnline := onl, lastSeen := now })) := by
  induction users with
  | nil => rfl
  | cons p rest ih =>
    simp only [List.map_cons, List.find?_cons]
    by_cases hp : (p.1 == u) = true
    · rw [if_pos hp]
      simp only [hp]
      rfl
    · rw [if_neg hp]
      simp only [Bool.not_eq_true] at hp
      simp only [hp]
      exact ih

theorem userLookup_userUpdate (users : List (String × UserRec)) (u : String)
    (onl : Bool) (now : Nat) (upsert : Bool) (rec : UserRec)
    (h : userLookup users u = some rec) :
    userLookup (userUpdate users u onl now upsert) u =
      some { rec with isOnline := onl, lastSeen := now } := by
  unfold userLookup at h ⊢
  cases hf : users.find? (fun p => p.1 == u) with
  | none => rw [hf] at h; simp at h
  | some p0 =>
    rw [hf] at h
    simp at h
    simp only [userUpdate, hf, Option.isSome_some, if_true]
    rw [find?_map_userUpdate, hf]
    simp [← h]

theorem mkStored_eq (d : MsgData) (i : String) (h : d.docId = some i) (hi : i ≠ "") :
    mkStored d = some {
      docId := i
      text := d.text
      senderId := d.senderId
      timestamp := d.timestamp
      seen := d.seen.getD false
      status := d.status.getD "sent"
      mediaUrl := d.mediaUrl
      mediaType := d.mediaType
      viewOnce := d.viewOnce.getD false
      replyToMessageId := d.replyToMessageId
      replyToText := d.replyToText
      replyToSender := d.replyToSender
      replyToMediaUrl := d.replyToMediaUrl
      replyToMediaType := d.replyToMediaType
      edited := d.edited.getD false
      editedAt := d.editedAt
      originalText := d.originalText
      localId := d.localId
      roomId := d.roomId.getD "room1" } := by
  simp [mkStored, h, hi]

-- A failing primary-store write is caught by the handler, which logs it
-- and returns with no state change and no emission.
theorem sendMessage_fail (s : ServerState) (cid : Nat) (d : MsgData)
    (storeOk bridgeOk : Bool) (fcm : FcmResult)
    (h : saveFails s d storeOk) :
    sendMessageHandler s cid d storeOk bridgeOk fcm = (s, []) := by
  rcases h with h | h | ⟨m, hm, hdup⟩
  · simp [sendMessageHandler, h]
  · cases hm : mkStored d with
    | none => simp [sendMessageHandler, hm]
    | some m => simp [sendMessageHandler, hm, h]
  · cases hso : storeOk
    · simp [sendMessageHandler, hm, hso]
    · simp [sendMessageHandler, hm, hso, hdup]

theorem sendMessage_success (s : ServerState) (cid : Nat) (d : MsgData)
    (m : StoredMessage) (bridgeOk : Bool) (fcm : FcmResult)
    (hm : mkStored d = some m)
    (hfresh : s.msgs.any (fun m0 => m0.docId == m.docId) = false) :
    sendMessageHandler s cid d true bridgeOk fcm =
      ({ s with
          msgs := (s.msgs ++ [m]).map (fun m0 =>
            if m0.docId == m.docId then { m0 with status := "delivered" } else m0),
          fsBridged :=
            if bridgeOk then s.fsBridged ++ [(jsOr d.roomId "room1", m.docId)] else s.fsBridged,
          tokens := sendFCM s.tokens (if d.senderId == some "user1" then "user2" else "user1") fcm },
       [⟨.new_message d.docId d.text d.senderId, roomRecipients s.conns d.roomId⟩,
        ⟨.message_sent d.docId d.localId "sent", [cid]⟩]) := by
  simp [sendMessageHandler, hm, hfresh]

-- When no stored message carries the new docId, marking the appended
-- document delivered touches only the appended document.
theorem map_deliver_append (msgs : List StoredMessage) (m : StoredMessage)
    (hfresh : ∀ m0 ∈ msgs, m0.docId ≠ m.docId) :
    (msgs ++ [m]).map (fun m0 =>
        if m0.docId == m.docId then { m0 with status := "delivered" } else m0) =
      msgs ++ [{ m with status := "delivered" }] := by
  rw [List.map_append]
  congr 1
  · induction msgs with
    | nil => rfl
    | cons a l ih =>
      have ha : (a.docId == m.docId) = false := by
        simpa using hfresh a (List.mem_cons_self a l)
      simp only [List.map_cons, ha, if_false, Bool.false_eq_true]
      rw [ih (fun m0 hm0 => hfresh m0 (List.mem_cons_of_mem a hm0))]
  · simp

-- find? commutes with an update applied to the matching documents, as
-- long as the update keeps docId unchanged.
theorem find?_map_ite (l : List StoredMessage) (i : String) (g : StoredMessage → StoredMessage)
    (hpres : ∀ m, (g m).docId = m.docId) :
    (l.map (fun m => if m.docId == i then g m else m)).find? (fun m => m.docId == i) =
      (l.find? (fun m => m.docId == i)).map g := by
  induction l with
  | nil => rfl
  | cons m rest ih =>
    simp only [List.map_cons, List.find?_cons]
    by_cases hp : (m.docId == i) = true
    · rw [if_pos hp]
      have : ((g m).docId == i) = true := by rw [hpres m]; exact hp
      simp only [this, hp]
      rfl
    · rw [if_neg hp]
      simp only [Bool.not_eq_true] at hp
      simp only [hp]
      exact ih

theorem length_insertDesc (m : StoredMessage) (l : List StoredMessage) :
    (insertDesc m l).length = l.length + 1 := by
  induction l with
  | nil => rfl
  | cons m0 rest ih =>
    unfold insertDesc
    by_cases h : m0.timestamp.getD 0 ≤ m.timestamp.getD 0
    · simp [h]
    · simp [h, ih]

theorem mem_insertDesc (a m : StoredMessage) (l : List StoredMessage) :
    a ∈ insertDesc m l ↔ a = m ∨ a ∈ l := by
  induction l with
  | nil => simp [insertDesc]
  | cons m0 rest ih =>
    unfold insertDesc
    by_cases h : m0.timestamp.getD 0 ≤ m.timestamp.getD 0
    · simp [h]
    · simp [h, ih]
      tauto

theorem length_sortDesc (l : List StoredMessage) : (sortDesc l).length = l.length := by
  induction l with
  | nil => rfl
  | cons m rest ih =>
    show (insertDesc m (sortDesc rest)).length = rest.length + 1
    rw [length_insertDesc, ih]

theorem mem_sortDesc (a : StoredMessage) (l : List StoredMessage) :
    a ∈ sortDesc l ↔ a ∈ l := by
  induction l with
  | nil => simp [sortDesc]
  | cons m rest ih =>
    show a ∈ insertDesc m (sortDesc rest) ↔ a ∈ m :: rest
    rw [mem_insertDesc, ih]
    simp [List.mem_cons]

-- ========================================================================
-- C1: smart disconnect
-- ========================================================================

/-- C1: on a disconnect of a connection holding a bound (truthy) user, the
handler suppresses every event and every user write when another live
connection of the same user remains, and otherwise emits exactly one
presence_update{user, false} to all remaining sockets and sets the user
document to isOnline false with lastSeen now. -/
theorem C1_disconnect_offline_iff_last (s : ServerState) (cid now : Nat) (c : Conn)
    (hc : s.conns.find? (fun x => x.id == cid) = some c)
    (hu : jsTruthy c.userId = true) :
    ((s.conns.filter (fun c2 => c2.id ≠ cid)).filter
        (fun c2 => c2.userId == c.userId && c2.id ≠ cid) ≠ [] →
      disconnectHandler s cid now =
        ({ s with conns := s.conns.filter (fun c2 => c2.id ≠ cid) }, [])) ∧
    ((s.conns.filter (fun c2 => c2.id ≠ cid)).filter
        (fun c2 => c2.userId == c.userId && c2.id ≠ cid) = [] →
      disconnectHandler s cid now =
        ({ s with conns := s.conns.filter (fun c2 => c2.id ≠ cid),
                  users := userUpdate s.users (c.userId.getD "") false now false },
         [⟨.presence_update (c.userId.getD "") false,
           (s.conns.filter (fun c2 => c2.id ≠ cid)).map (fun c2 => c2.id)⟩]) ∧
      ∀ rec, userLookup s.users (c.userId.getD "") = some rec →
        userLookup (userUpdate s.users (c.userId.getD "") false now false) (c.userId.getD "") =
          some { rec with isOnline := false, lastSeen := now }) := by
  constructor
  · intro hne
    have hex : ∃ x ∈ s.conns, x.userId = c.userId ∧ ¬x.id = cid := by
      obtain ⟨a, ha⟩ := List.exists_mem_of_ne_nil _ hne
      have h1 := List.mem_filter.mp ha
      have h2 := List.mem_filter.mp h1.1
      refine ⟨a, h2.1, ?_, ?_⟩
      · have := h1.2
        simp only [Bool.and_eq_true, beq_iff_eq] at this
        exact this.1
      · have := h2.2
        simpa using this
    simp [disconnectHandler, hc, hu, hex]
  · intro he
    have hall : ∀ a ∈ s.conns, a.userId = c.userId → a.id = cid := by
      intro a ha hu2
      by_contra hne2
      have hmem : a ∈ (s.conns.filter (fun c2 => c2.id ≠ cid)).filter
          (fun c2 => c2.userId == c.userId && c2.id ≠ cid) := by
        refine List.mem_filter.mpr ⟨List.mem_filter.mpr ⟨ha, by simpa using hne2⟩, ?_⟩
        simp [hu2, hne2]
      rw [he] at hmem
      simp at hmem
    refine ⟨by simp [disconnectHandler, hc, hu, he]; exact hall, ?_⟩
    intro rec hrec
    exact userLookup_userUpdate s.users (c.userId.getD "") false now false rec hrec

/-- Witness for C1 at a concrete state: user A holds the single connection 1
while the observer connection 0 (user B) stays; the disconnect of 1 emits
presence_update{A, false} to connection 0 and records A offline at time 9. -/
theorem C1_disconnect_offline_iff_last_witness :
    disconnectHandler
        { conns := [obsConn, aConn 1],
          users := [("A", { isOnline := true, lastSeen := 3 })] } 1 9 =
      ({ conns := [obsConn],
         users := [("A", { isOnline := false, lastSeen := 9 })] },
       [⟨.presence_update "A" false, [0]⟩]) := by
  have h := C1_disconnect_offline_iff_last
    { conns := [obsConn, aConn 1],
      users := [("A", { isOnline := true, lastSeen := 3 })] } 1 9 (aConn 1)
    (by decide) (by decide)
  rw [(h.2 (by decide)).1]
  decide

-- ========================================================================
-- C10: disconnect of a never-bound connection
-- ========================================================================

/-- C10: a connection that never had a user bound (userId unset) produces no
event and no store write on disconnect; only the connection set shrinks. -/
theorem C10_disconnect_unbound_silent (s : ServerState) (cid now : Nat) (c : Conn)
    (hc : s.conns.find? (fun x => x.id == cid) = some c)
    (hu : c.userId = none) :
    disconnectHandler s cid now =
      ({ s with conns := s.conns.filter (fun c2 => c2.id ≠ cid) }, []) := by
  simp [disconnectHandler, hc, hu, jsTruthy]

/-- Witness for C10: connection 5 connects and disconnects without a join;
no event is emitted and the user and message stores are untouched. -/
theorem C10_disconnect_unbound_silent_witness :
    disconnectHandler
        { conns := [obsConn, { id := 5 }],
          users := [("B", { isOnline := true, lastSeen := 3 })] } 5 9 =
      ({ conns := [obsConn],
         users := [("B", { isOnline := true, lastSeen := 3 })] }, []) := by
  have h := C10_disconnect_unbound_silent
    { conns := [obsConn, { id := 5 }],
      users := [("B", { isOnline := true, lastSeen := 3 })] } 5 9 { id := 5 }
    (by decide) rfl
  rw [h]
  decide

-- ========================================================================
-- C6: join replies with presence of pre-existing members
-- ========================================================================

/-- C6: when a connection joins a room that already holds a member
connection bound to a different (truthy) user, the joiner is immediately
sent presence_update{thatUser, true} as part of the join handling. -/
theorem C6_join_sends_existing_presence (s : ServerState) (cid : Nat) (u r : String)
    (now : Nat) (v : String) (c' : Conn)
    (h1 : c' ∈ s.conns) (h2 : c'.rooms.contains r = true) (h3 : c'.userId = some v)
    (h4 : v ≠ "") (h5 : v ≠ u) (h6 : c'.id ≠ cid) :
    (⟨.presence_update v true, [cid]⟩ : TEv) ∈ (joinHandler s cid u r now).2 := by
  have heq : (fun c => if c.id == cid then
      { c with userId := some u,
               rooms := if c.rooms.contains r then c.rooms else c.rooms ++ [r] }
      else c) c' = c' := by
    simp [h6]
  have hc' : c' ∈ s.conns.map (fun c =>
      if c.id == cid then
        { c with userId := some u,
                 rooms := if c.rooms.contains r then c.rooms else c.rooms ++ [r] }
      else c) := heq ▸ List.mem_map_of_mem _ h1
  have hroom : c' ∈ roomMembers (s.conns.map (fun c =>
      if c.id == cid then
        { c with userId := some u,
                 rooms := if c.rooms.contains r then c.rooms else c.rooms ++ [r] }
      else c)) r := List.mem_filter.mpr ⟨hc', h2⟩
  have hsome : some v ∈ (roomMembers (s.conns.map (fun c =>
      if c.id == cid then
        { c with userId := some u,
                 rooms := if c.rooms.contains r then c.rooms else c.rooms ++ [r] }
      else c)) r).map (fun c => c.userId) := by
    have := List.mem_map_of_mem (fun c => c.userId) hroom
    rwa [show (fun c => c.userId) c' = some v from h3] at this
  have hfil : some v ∈ ((roomMembers (s.conns.map (fun c =>
      if c.id == cid then
        { c with userId := some u,
                 rooms := if c.rooms.contains r then c.rooms else c.rooms ++ [r] }
      else c)) r).map (fun c => c.userId)).filter
        (fun w => jsTruthy w && !(w == some u)) :=
    List.mem_filter.mpr ⟨hsome, by simp [jsTruthy, h4, h5]⟩
  have hv : v ∈ (((roomMembers (s.conns.map (fun c =>
      if c.id == cid then
        { c with userId := some u,
                 rooms := if c.rooms.contains r then c.rooms else c.rooms ++ [r] }
      else c)) r).map (fun c => c.userId)).filter
        (fun w => jsTruthy w && !(w == some u))).filterMap id :=
    List.mem_filterMap.mpr ⟨some v, hfil, rfl⟩
  exact List.mem_cons_of_mem _ (List.mem_map_of_mem _ hv)

/-- Witness for C6: connection 2 joins room r1 as user A while the observer
connection (user B) is already there; the joiner is told B is online. -/
theorem C6_join_sends_existing_presence_witness :
    (⟨.presence_update "B" true, [2]⟩ : TEv) ∈
      (joinHandler { conns := [obsConn, { id := 2 }] } 2 "A" "r1" 5).2 :=
  C6_join_sends_existing_presence { conns := [obsConn, { id := 2 }] } 2 "A" "r1" 5 "B"
    obsConn (by decide) (by decide) rfl (by decide) (by decide) (by decide)

-- ========================================================================
-- C3: resubmitting the same document id
-- ========================================================================

/-- C3 counterexample: submitting m1 with text a and then m1 with text b
leaves exactly one stored message whose text is a, the first submission,
while the second submission carried text b; the store does not upsert. -/
theorem C3_counterexample_first_version_retained :
    ((sendMessageHandler (sendMessageHandler baseState 1 msgA true true .delivered).1
        1 msgB true true .delivered).1.msgs.map (fun m => (m.docId, m.text)) =
      [("m1", some "a")]) ∧ msgB.text = some "b" := by
  decide

/-- C3 (amended): submitting two messages with the same document id leaves
exactly one stored record, and that record keeps the first submission
content; the duplicate insert fails on the unique docId index, is caught,
and produces no event. -/
theorem C3_duplicate_insert_keeps_first (s : ServerState) (cid1 cid2 : Nat)
    (d1 d2 : MsgData) (i : String) (b1 b2 : Bool) (f1 f2 : FcmResult)
    (h1 : d1.docId = some i) (h2 : d2.docId = some i) (hi : i ≠ "")
    (hfresh : ∀ m0 ∈ s.msgs, m0.docId ≠ i) :
    (((sendMessageHandler (sendMessageHandler s cid1 d1 true b1 f1).1
        cid2 d2 true b2 f2).1.msgs.filter (fun m => m.docId == i)).length = 1) ∧
    (∀ m ∈ (sendMessageHandler (sendMessageHandler s cid1 d1 true b1 f1).1
        cid2 d2 true b2 f2).1.msgs,
      m.docId = i → m.text = d1.text ∧ m.status = "delivered") ∧
    (sendMessageHandler (sendMessageHandler s cid1 d1 true b1 f1).1
        cid2 d2 true b2 f2).2 = [] := by
  obtain ⟨m1, hm1, hid1, htext1⟩ :
      ∃ m1, mkStored d1 = some m1 ∧ m1.docId = i ∧ m1.text = d1.text :=
    ⟨_, mkStored_eq d1 i h1 hi, rfl, rfl⟩
  obtain ⟨m2, hm2, hid2⟩ : ∃ m2, mkStored d2 = some m2 ∧ m2.docId = i :=
    ⟨_, mkStored_eq d2 i h2 hi, rfl⟩
  have hany1 : s.msgs.any (fun m0 => m0.docId == m1.docId) = false := by
    rw [List.any_eq_false]
    intro m0 hm0
    simp [hid1, hfresh m0 hm0]
  have hs1 := sendMessage_success s cid1 d1 m1 b1 f1 hm1 hany1
  have hmsgs1 : (sendMessageHandler s cid1 d1 true b1 f1).1.msgs =
      s.msgs ++ [{ m1 with status := "delivered" }] := by
    rw [hs1]
    exact map_deliver_append s.msgs m1 (fun m0 h => by rw [hid1]; exact hfresh m0 h)
  have hdup : (sendMessageHandler s cid1 d1 true b1 f1).1.msgs.any
      (fun m0 => m0.docId == m2.docId) = true := by
    rw [hmsgs1, List.any_eq_true]
    refine ⟨{ m1 with status := "delivered" },
      List.mem_append_right _ (List.mem_singleton_self _), ?_⟩
    simp [hid1, hid2]
  have h2fail := sendMessage_fail (sendMessageHandler s cid1 d1 true b1 f1).1
    cid2 d2 true b2 f2 (Or.inr (Or.inr ⟨m2, hm2, hdup⟩))
  rw [h2fail]
  refine ⟨?_, ?_, rfl⟩
  · rw [hmsgs1, List.filter_append]
    have hnil : s.msgs.filter (fun m => m.docId == i) = [] := by
      rw [List.filter_eq_nil_iff]
      intro m0 hm0
      simp [hfresh m0 hm0]
    rw [hnil]
    simp [hid1]
  · intro m hm hdoc
    rw [hmsgs1] at hm
    rcases List.mem_append.mp hm with hmem | hmem
    · exact absurd hdoc (hfresh m hmem)
    · have : m = { m1 with status := "delivered" } := List.mem_singleton.mp hmem
      subst this
      exact ⟨htext1, rfl⟩

/-- Witness for C3 (amended) at the concrete double submission of m1. -/
theorem C3_duplicate_insert_keeps_first_witness :
    (((sendMessageHandler (sendMessageHandler baseState 1 msgA true true .delivered).1
        1 msgB true true .delivered).1.msgs.filter (fun m => m.docId == "m1")).length = 1) ∧
    (sendMessageHandler (sendMessageHandler baseState 1 msgA true true .delivered).1
        1 msgB true true .delivered).2 = [] :=
  ⟨(C3_duplicate_insert_keeps_first baseState 1 1 msgA msgB "m1" true true .delivered .delivered
      rfl rfl (by decide) (by decide)).1,
   (C3_duplicate_insert_keeps_first baseState 1 1 msgA msgB "m1" true true .delivered .delivered
      rfl rfl (by decide) (by decide)).2.2⟩

-- ========================================================================
-- C4: primary-store failure handling
-- ========================================================================

/-- C4 counterexample: when the primary-store write fails, the submitting
client receives nothing at all, not a failed acknowledgment; the handler
swallows the error, leaving the state unchanged and the trace empty. -/
theorem C4_counterexample_no_failure_ack :
    sendMessageHandler baseState 1 msgHi false true .delivered = (baseState, []) := by
  decide

/-- C4 (amended): a submission whose primary-store write fails produces no
new_message broadcast, no message_sent acknowledgment and no state change;
the failure is only logged server side and nothing is sent to the client. -/
theorem C4_store_failure_silent (s : ServerState) (cid : Nat) (d : MsgData)
    (storeOk bridgeOk : Bool) (fcm : FcmResult)
    (h : saveFails s d storeOk) :
    sendMessageHandler s cid d storeOk bridgeOk fcm = (s, []) :=
  sendMessage_fail s cid d storeOk bridgeOk fcm h

/-- Witness for C4 (amended): a store outage during the submission of msgA
yields an unchanged state and an empty trace. -/
theorem C4_store_failure_silent_witness :
    sendMessageHandler baseState 1 msgA false true .delivered = (baseState, []) :=
  C4_store_failure_silent baseState 1 msgA false true .delivered (Or.inr (Or.inl rfl))

-- ========================================================================
-- C5: persisted status and history visibility
-- ========================================================================

theorem jsOr_getD (o : Option String) (dflt : String) (h : o ≠ some "") :
    jsOr o dflt = o.getD dflt := by
  cases o with
  | none => rfl
  | some s =>
    have : s ≠ "" := fun he => h (by rw [he])
    simp [jsOr, this]

/-- C5 counterexample: after a clean submission of {m1, hi, r1} with no
later status update or edit, the stored status is delivered, not sent: the
handler upgrades the status right after the save, and the history fetch
returns the message with that status. -/
theorem C5_counterexample_status_delivered :
    ((historyFetch (sendMessageHandler baseState 1 msgHi true true .delivered).1
        (some "r1") none none).map (fun m => (m.docId, m.text, m.status)) =
      [("m1", some "hi", "delivered")]) ∧
    ¬ ((sendMessageHandler baseState 1 msgHi true true .delivered).1.msgs.map
        (fun m => m.status) = ["sent"]) := by
  decide

/-- C5 (amended): a successful submission with a fresh document id persists
the message with status delivered (the handler promotes it immediately
after the save), and a later history fetch for the room returns it with the
submitted text unchanged. -/
theorem C5_history_returns_message (s : ServerState) (cid : Nat) (d : MsgData)
    (i : String) (b : Bool) (f : FcmResult)
    (h : d.docId = some i) (hi : i ≠ "") (hroom : d.roomId ≠ some "")
    (hfresh : ∀ m0 ∈ s.msgs, m0.docId ≠ i)
    (hfew : (s.msgs.filter (fun m => m.roomId == d.roomId.getD "room1")).length < 30) :
    ∃ m ∈ historyFetch (sendMessageHandler s cid d true b f).1 d.roomId none none,
      m.docId = i ∧ m.text = d.text ∧ m.status = "delivered" := by
  obtain ⟨m1, hm1, hid1, htext1, hroom1⟩ :
      ∃ m1, mkStored d = some m1 ∧ m1.docId = i ∧ m1.text = d.text ∧
        m1.roomId = d.roomId.getD "room1" :=
    ⟨_, mkStored_eq d i h hi, rfl, rfl, rfl⟩
  have hany1 : s.msgs.any (fun m0 => m0.docId == m1.docId) = false := by
    rw [List.any_eq_false]
    intro m0 hm0
    simp [hid1, hfresh m0 hm0]
  have hs1 := sendMessage_success s cid d m1 b f hm1 hany1
  have hmsgs1 : (sendMessageHandler s cid d true b f).1.msgs =
      s.msgs ++ [{ m1 with status := "delivered" }] := by
    rw [hs1]
    exact map_deliver_append s.msgs m1 (fun m0 hm0 => by rw [hid1]; exact hfresh m0 hm0)
  have hq : (sendMessageHandler s cid d true b f).1.msgs.filter
        (fun m => m.roomId == jsOr d.roomId "room1" &&
          (match (none : Option Nat) with
           | some b2 =>
              if b2 = 0 then true
              else match m.timestamp with
                   | some t => decide (t < b2)
                   | none => false
           | none => true)) =
      s.msgs.filter (fun m => m.roomId == d.roomId.getD "room1") ++
        [{ m1 with status := "delivered" }] := by
    rw [hmsgs1, List.filter_append]
    rw [jsOr_getD d.roomId "room1" hroom]
    simp [hroom1]
  have hmem : ({ m1 with status := "delivered" } : StoredMessage) ∈
      historyFetch (sendMessageHandler s cid d true b f).1 d.roomId none none := by
    unfold historyFetch
    simp only [hq]
    have hlen : (sortDesc (s.msgs.filter (fun m => m.roomId == d.roomId.getD "room1") ++
        [{ m1 with status := "delivered" }])).length ≤ 30 := by
      rw [length_sortDesc, List.length_append, List.length_singleton]
      omega
    rw [List.take_of_length_le hlen]
    rw [mem_sortDesc]
    exact List.mem_append_right _ (List.mem_singleton_self _)
  exact ⟨{ m1 with status := "delivered" }, hmem, hid1, htext1, rfl⟩

/-- Witness for C5 (amended) at the concrete submission of msgHi to r1. -/
theorem C5_history_returns_message_witness :
    ∃ m ∈ historyFetch (sendMessageHandler baseState 1 msgHi true true .delivered).1
        msgHi.roomId none none,
      m.docId = "m1" ∧ m.text = msgHi.text ∧ m.status = "delivered" :=
  C5_history_returns_message baseState 1 msgHi "m1" true .delivered
    rfl (by decide) (by decide) (by decide) (by decide)

-- ========================================================================
-- C7: field validation on send_message
-- ========================================================================

/-- C7 counterexample: a submission missing both sender and room is not
rejected; the message is stored (with the schema default room room1) and
the sender still receives a message_sent acknowledgment, so state IS
created for a submission missing required-per-the-claim fields. -/
theorem C7_counterexample_missing_sender_accepted :
    ((sendMessageHandler baseState 1 { docId := some "m9", text := some "hi" }
        true true .delivered).1.msgs.map (fun m => (m.docId, m.senderId, m.roomId)) =
      [("m9", none, "room1")]) ∧
    (sendMessageHandler baseState 1 { docId := some "m9", text := some "hi" }
        true true .delivered).2 =
      [⟨.new_message (some "m9") (some "hi") none, []⟩,
       ⟨.message_sent (some "m9") none "sent", [1]⟩] := by
  decide

/-- C7 (amended): only the document id is validated (schema-required
String): a submission with a missing or empty docId fails the save before
any mutation, with no stored message, no broadcast and no acknowledgment;
a submission missing sender and room is accepted, stored with the default
room room1, and acknowledged. -/
theorem C7_only_docId_required (s : ServerState) (cid : Nat) (b : Bool) (f : FcmResult) :
    (∀ (d : MsgData) (so : Bool), (d.docId = none ∨ d.docId = some "") →
      sendMessageHandler s cid d so b f = (s, [])) ∧
    (∀ (d : MsgData) (i : String), d.docId = some i → i ≠ "" →
      d.senderId = none → d.roomId = none →
      (∀ m0 ∈ s.msgs, m0.docId ≠ i) →
      (∃ m ∈ (sendMessageHandler s cid d true b f).1.msgs,
        m.docId = i ∧ m.senderId = none ∧ m.roomId = "room1") ∧
      (⟨.message_sent (some i) d.localId "sent", [cid]⟩ : TEv) ∈
        (sendMessageHandler s cid d true b f).2 ∧
      (⟨.new_message (some i) d.text none, ([] : List Nat)⟩ : TEv) ∈
        (sendMessageHandler s cid d true b f).2) := by
  constructor
  · intro d so hd
    refine sendMessage_fail s cid d so b f (Or.inl ?_)
    rcases hd with hd | hd
    · simp [mkStored, hd]
    · simp [mkStored, hd]
  · intro d i h hi hsender hroom hfresh
    obtain ⟨m1, hm1, hid1, hsid1, hroom1⟩ :
        ∃ m1, mkStored d = some m1 ∧ m1.docId = i ∧ m1.senderId = d.senderId ∧
          m1.roomId = d.roomId.getD "room1" :=
      ⟨_, mkStored_eq d i h hi, rfl, rfl, rfl⟩
    have hany1 : s.msgs.any (fun m0 => m0.docId == m1.docId) = false := by
      rw [List.any_eq_false]
      intro m0 hm0
      simp [hid1, hfresh m0 hm0]
    have hs1 := sendMessage_success s cid d m1 b f hm1 hany1
    have hmsgs1 : (sendMessageHandler s cid d true b f).1.msgs =
        s.msgs ++ [{ m1 with status := "delivered" }] := by
      rw [hs1]
      exact map_deliver_append s.msgs m1 (fun m0 hm0 => by rw [hid1]; exact hfresh m0 hm0)
    refine ⟨⟨{ m1 with status := "delivered" }, ?_, hid1, ?_, ?_⟩, ?_, ?_⟩
    · rw [hmsgs1]
      exact List.mem_append_right _ (List.mem_singleton_self _)
    · show m1.senderId = none
      rw [hsid1, hsender]
    · show m1.roomId = "room1"
      rw [hroom1, hroom]
      rfl
    · rw [hs1]
      simp [h]
    · rw [hs1]
      simp [h, hsender, hroom, roomRecipients]

/-- Witness for C7 (amended): a docId-less submission is dropped whole,
while a submission with only a docId and text is stored and acknowledged. -/
theorem C7_only_docId_required_witness :
    sendMessageHandler baseState 1 { text := some "hi" } true true .delivered =
      (baseState, []) ∧
    (⟨.message_sent (some "m9") none "sent", [1]⟩ : TEv) ∈
      (sendMessageHandler baseState 1 { docId := some "m9", text := some "hi" }
        true true .delivered).2 :=
  ⟨(C7_only_docId_required baseState 1 true .delivered).1
      { text := some "hi" } true (Or.inl rfl),
   ((C7_only_docId_required baseState 1 true .delivered).2
      { docId := some "m9", text := some "hi" } "m9" rfl (by decide) rfl rfl
      (by decide)).2.1⟩

-- ========================================================================
-- C8: notification failure is isolated from ack and broadcast
-- ========================================================================

/-- C8: the notification call runs last and swallows every outcome, so the
trace and the primary message store are identical whatever the FCM outcome,
and the sender acknowledgment and the room broadcast are always present for
a successful submission. -/
theorem C8_notification_failure_isolated (s : ServerState) (cid : Nat) (d : MsgData)
    (i : String) (b : Bool) (fcm1 fcm2 : FcmResult)
    (h : d.docId = some i) (hi : i ≠ "")
    (hfresh : ∀ m0 ∈ s.msgs, m0.docId ≠ i) :
    (sendMessageHandler s cid d true b fcm1).2 = (sendMessageHandler s cid d true b fcm2).2 ∧
    (sendMessageHandler s cid d true b fcm1).1.msgs =
      (sendMessageHandler s cid d true b fcm2).1.msgs ∧
    (⟨.message_sent (some i) d.localId "sent", [cid]⟩ : TEv) ∈
      (sendMessageHandler s cid d true b fcm1).2 ∧
    (⟨.new_message (some i) d.text d.senderId, roomRecipients s.conns d.roomId⟩ : TEv) ∈
      (sendMessageHandler s cid d true b fcm1).2 := by
  obtain ⟨m1, hm1, hid1⟩ : ∃ m1, mkStored d = some m1 ∧ m1.docId = i :=
    ⟨_, mkStored_eq d i h hi, rfl⟩
  have hany1 : s.msgs.any (fun m0 => m0.docId == m1.docId) = false := by
    rw [List.any_eq_false]
    intro m0 hm0
    simp [hid1, hfresh m0 hm0]
  have hs1 := sendMessage_success s cid d m1 b fcm1 hm1 hany1
  have hs2 := sendMessage_success s cid d m1 b fcm2 hm1 hany1
  rw [hs1, hs2]
  refine ⟨rfl, rfl, ?_, ?_⟩
  · simp [h]
  · simp [h]

/-- Witness for C8: for the submission of msgHi, a permanent token failure
and a clean delivery produce the same trace and message store, and the
acknowledgment is present. -/
theorem C8_notification_failure_isolated_witness :
    (sendMessageHandler baseState 1 msgHi true true .invalidToken).2 =
      (sendMessageHandler baseState 1 msgHi true true .delivered).2 ∧
    (⟨.message_sent (some "m1") none "sent", [1]⟩ : TEv) ∈
      (sendMessageHandler baseState 1 msgHi true true .invalidToken).2 :=
  ⟨(C8_notification_failure_isolated baseState 1 msgHi "m1" true .invalidToken .delivered
      rfl (by decide) (by decide)).1,
   (C8_notification_failure_isolated baseState 1 msgHi "m1" true .invalidToken .delivered
      rfl (by decide) (by decide)).2.2.1⟩

-- ========================================================================
-- C9: edits and the preserved original text
-- ========================================================================

-- A successful edit through the route: both fields truthy and the message
-- found.
theorem edit_success (s : ServerState) (i t : String) (roomId : Option String)
    (now : Nat) (msg : StoredMessage)
    (hi : i ≠ "") (ht : t ≠ "")
    (hfind : s.msgs.find? (fun m => m.docId == i) = some msg) :
    editHandler s (some i) (some t) roomId now =
      ({ s with msgs := s.msgs.map (fun m =>
          if m.docId == i then
            { m with text := some t, edited := true, editedAt := some now,
                     originalText := msg.text }
          else m) },
       [⟨.message_edited i t now, roomRecipients s.conns (some (jsOr roomId "room1"))⟩]) := by
  simp [editHandler, jsTruthy, hi, ht, hfind]

/-- C9 counterexample: a message with original text a edited to b and then
to c ends with originalText b, the text before the second edit, not the
pre-first-edit text a: the route overwrites originalText on every edit. -/
theorem C9_counterexample_original_replaced :
    (((editHandler (editHandler editState (some "m1") (some "b") (some "r1") 9).1
        (some "m1") (some "c") (some "r1") 10).1.msgs.map
          (fun m => (m.text, m.originalText))) =
      [(some "c", some "b")]) ∧ storedA.text = some "a" := by
  decide

/-- C9 (amended): each edit overwrites the body and sets originalText to
the text the message carried immediately before that edit, so after a
second edit the preserved text is the first edit body, not the original. -/
theorem C9_edit_overwrites_original (s : ServerState) (i t1 t2 : String)
    (ra rb : Option String) (n1 n2 : Nat) (msg : StoredMessage)
    (hfind : s.msgs.find? (fun m => m.docId == i) = some msg)
    (hi : i ≠ "") (ht1 : t1 ≠ "") (ht2 : t2 ≠ "") :
    ((editHandler (editHandler s (some i) (some t1) ra n1).1
        (some i) (some t2) rb n2).1.msgs.find? (fun m => m.docId == i)) =
      some { msg with text := some t2, edited := true, editedAt := some n2,
                      originalText := some t1 } := by
  have e1 := edit_success s i t1 ra n1 msg hi ht1 hfind
  have hfind1 : (editHandler s (some i) (some t1) ra n1).1.msgs.find?
      (fun m => m.docId == i) =
      some { msg with text := some t1, edited := true, editedAt := some n1,
                      originalText := msg.text } := by
    rw [e1]
    simp only
    rw [find?_map_ite s.msgs i
      (fun m => { m with text := some t1, edited := true, editedAt := some n1,
                          originalText := msg.text }) (fun m => rfl), hfind]
    rfl
  have e2 := edit_success (editHandler s (some i) (some t1) ra n1).1 i t2 rb n2
    _ hi ht2 hfind1
  rw [e2]
  simp only
  rw [find?_map_ite (editHandler s (some i) (some t1) ra n1).1.msgs i
    (fun m => { m with text := some t2, edited := true, editedAt := some n2,
                        originalText := some t1 }) (fun m => rfl), hfind1]
  rfl

/-- Witness for C9 (amended) at the concrete two edits of message m1. -/
theorem C9_edit_overwrites_original_witness :
    ((editHandler (editHandler editState (some "m1") (some "b") (some "r1") 9).1
        (some "m1") (some "c") (some "r1") 10).1.msgs.find?
          (fun m => m.docId == "m1")) =
      some { storedA with text := some "c", edited := true, editedAt := some 10,
                          originalText := some "b" } :=
  C9_edit_overwrites_original editState "m1" "b" "c" (some "r1") (some "r1") 9 10 storedA
    (by decide) (by decide) (by decide) (by decide)

-- ========================================================================
-- C2: presence events over whole join/disconnect runs
-- ========================================================================

theorem runFrom_cons (now : Nat) (s : ServerState) (op : Op) (ops : List Op) :
    runFrom now s (op :: ops) =
      ((runFrom now (step now s op).1 ops).1,
       (step now s op).2 ++ (runFrom now (step now s op).1 ops).2) := rfl

theorem countTo_append (t1 t2 : List TEv) (obs : Nat) (e : Event) :
    countTo (t1 ++ t2) obs e = countTo t1 obs e + countTo t2 obs e :=
  List.countP_append _ _ _

theorem aConns_append (a b : List Nat) : aConns (a ++ b) = aConns a ++ aConns b := by
  induction a with
  | nil => rfl
  | cons j rest ih => simp [aConns, ih]

theorem aConns_ids (l : List Nat) : (aConns l).map (fun c => c.id) = l := by
  induction l with
  | nil => rfl
  | cons j rest ih => simp [aConns, aConn, ih]

theorem aConns_length (l : List Nat) : (aConns l).length = l.length := by
  induction l with
  | nil => rfl
  | cons j rest ih => simp [aConns, ih]

-- The join handler update map leaves every connection of user A whose id
-- differs from the joining id unchanged.
theorem joinUpd_aConns (l : List Nat) (i : Nat) (h : i ∉ l) :
    (aConns l).map (fun c =>
      if c.id == i then
        { c with userId := some "A",
                 rooms := if c.rooms.contains "r1" then c.rooms else c.rooms ++ ["r1"] }
      else c) = aConns l := by
  induction l with
  | nil => rfl
  | cons j rest ih =>
    have hj : j ≠ i := fun he => h (he ▸ List.mem_cons_self j rest)
    have hrest : i ∉ rest := fun hm => h (List.mem_cons_of_mem j hm)
    simp only [aConns, List.map_cons, ih hrest]
    congr 1
    simp [aConn, hj]

-- Every connection of the presence scenario sits in room r1 and belongs
-- to user A.
theorem aConns_rooms (l : List Nat) : ∀ a ∈ aConns l, "r1" ∈ a.rooms := by
  induction l with
  | nil => intro a ha; cases ha
  | cons j rest ih =>
    intro a ha
    rcases List.mem_cons.mp ha with h | h
    · subst h; simp [aConn]
    · exact ih a h

theorem aConns_userId (l : List Nat) : ∀ a ∈ aConns l, a.userId = some "A" := by
  induction l with
  | nil => intro a ha; cases ha
  | cons j rest ih =>
    intro a ha
    rcases List.mem_cons.mp ha with h | h
    · subst h; rfl
    · exact ih a h

theorem roomMembersA (l : List Nat) :
    (aConns l).filter (fun c => c.rooms.contains "r1") = aConns l := by
  apply List.filter_eq_self.mpr
  intro a ha
  simpa using aConns_rooms l a ha

theorem roomMembers_state (l : List Nat) :
    roomMembers (obsConn :: aConns l) "r1" = obsConn :: aConns l := by
  unfold roomMembers
  rw [List.filter_cons, if_pos (show (obsConn.rooms.contains "r1") = true by decide)]
  rw [roomMembersA l]

theorem aConns_filter_ne (l : List Nat) (i : Nat) :
    (aConns l).filter (fun c => decide (c.id ≠ i)) =
      aConns (l.filter (fun j => decide (j ≠ i))) := by
  induction l with
  | nil => rfl
  | cons j rest ih =>
    by_cases hj : j = i
    · subst hj
      show (aConn j :: aConns rest).filter (fun c => decide (c.id ≠ j)) =
        aConns ((j :: rest).filter (fun x => decide (x ≠ j)))
      rw [List.filter_cons, List.filter_cons]
      rw [if_neg (by simp [aConn]), if_neg (by simp)]
      exact ih
    · show (aConn j :: aConns rest).filter (fun c => decide (c.id ≠ i)) =
        aConns ((j :: rest).filter (fun x => decide (x ≠ i)))
      rw [List.filter_cons, List.filter_cons]
      rw [if_pos (by simp [aConn, hj]), if_pos (by simp [hj])]
      show aConn j :: (aConns rest).filter (fun c => decide (c.id ≠ i)) =
        aConn j :: aConns (rest.filter (fun x => decide (x ≠ i)))
      rw [ih]

theorem aConns_userIds_filtered (l : List Nat) :
    ((aConns l).map (fun c => c.userId)).filter
      (fun v => jsTruthy v && !(v == some "A")) = [] := by
  rw [List.filter_eq_nil_iff]
  intro v hv
  obtain ⟨c, hc, hvc⟩ := List.mem_map.mp hv
  rw [← hvc, aConns_userId l c hc]
  decide

-- One connect-then-join of user A into room r1, against the observer plus
-- the already-joined connections of A: the room broadcast reaches the
-- observer and every earlier A connection, and the joiner is told about B.
theorem connect_join_step (now i : Nat) (done : List Nat) (users : List (String × UserRec))
    (hi0 : i ≠ 0) (hdone : i ∉ done) :
    joinHandler (connectHandler (presenceState done users) i) i "A" "r1" now =
      (presenceState (done ++ [i]) (userUpdate users "A" true now true),
       [⟨.presence_update "A" true, 0 :: done⟩, ⟨.presence_update "B" true, [i]⟩]) := by
  have hconns : ((obsConn :: aConns done) ++ [({ id := i } : Conn)]).map (fun c =>
      if c.id == i then
        { c with userId := some "A",
                 rooms := if c.rooms.contains "r1" then c.rooms else c.rooms ++ ["r1"] }
      else c) = obsConn :: aConns (done ++ [i]) := by
    rw [List.cons_append, List.map_cons, List.map_append, joinUpd_aConns done i hdone,
      aConns_append]
    congr 1
    · simp [obsConn, Ne.symm hi0]
    · congr 1
      simp [aConns, aConn]
  have hexc : roomRecipientsExcept (obsConn :: aConns (done ++ [i])) "r1" i = 0 :: done := by
    unfold roomRecipientsExcept
    rw [roomMembers_state (done ++ [i]), List.filter_cons]
    rw [if_pos (show decide (obsConn.id ≠ i) = true by simp [obsConn, Ne.symm hi0])]
    rw [aConns_append, List.filter_append, aConns_filter_ne done i, aConns_filter_ne [i] i]
    rw [show done.filter (fun j => decide (j ≠ i)) = done from
      List.filter_eq_self.mpr (fun a ha => by
        simp
        exact fun he => hdone (he ▸ ha))]
    rw [show ([i].filter (fun j => decide (j ≠ i))) = ([] : List Nat) by simp]
    simp [obsConn, aConns, aConns_ids]
  have hrecon : (((roomMembers (obsConn :: aConns (done ++ [i])) "r1").map
        (fun c => c.userId)).filter
      (fun v => jsTruthy v && !(v == some "A"))).filterMap id = ["B"] := by
    rw [roomMembers_state (done ++ [i]), List.map_cons, List.filter_cons]
    rw [if_pos (show (jsTruthy obsConn.userId && !(obsConn.userId == some "A")) = true
      by decide)]
    rw [aConns_userIds_filtered (done ++ [i])]
    decide
  simp only [joinHandler, connectHandler, presenceState]
  rw [hconns, hexc, hrecon]
  rfl

theorem findA (l : List Nat) (i : Nat) (hi : i ∈ l) :
    (aConns l).find? (fun c => c.id == i) = some (aConn i) := by
  induction l with
  | nil => cases hi
  | cons j rest ih =>
    by_cases hj : j = i
    · subst hj
      show (aConn j :: aConns rest).find? (fun c => c.id == j) = some (aConn j)
      rw [List.find?_cons]
      simp [aConn]
    · show (aConn j :: aConns rest).find? (fun c => c.id == i) = some (aConn i)
      rw [List.find?_cons]
      have hf : ((aConn j).id == i) = false := by simp [aConn, hj]
      simp only [hf]
      exact ih (by
        rcases List.mem_cons.mp hi with h1 | h1
        · exact absurd h1.symm hj
        · exact h1)

theorem find?_presence (l : List Nat) (i : Nat) (hi : i ∈ l) (h0 : 0 ∉ l) :
    (obsConn :: aConns l).find? (fun c => c.id == i) = some (aConn i) := by
  have hi0 : i ≠ 0 := fun he => h0 (he ▸ hi)
  rw [List.find?_cons]
  have hf : (obsConn.id == i) = false := by simp [obsConn, Ne.symm hi0]
  simp only [hf]
  exact findA l i hi

theorem mem_aConns (a : Conn) (l : List Nat) (h : a ∈ aConns l) : ∃ j ∈ l, a = aConn j := by
  induction l with
  | nil => cases h
  | cons j rest ih =>
    rcases List.mem_cons.mp h with h1 | h1
    · exact ⟨j, List.mem_cons_self j rest, h1⟩
    · obtain ⟨j2, hj2, he⟩ := ih h1
      exact ⟨j2, List.mem_cons_of_mem j hj2, he⟩

theorem remaining_filter (F : List Nat) (i : Nat) (hF : ∀ j ∈ F, j ≠ i) :
    (obsConn :: aConns F).filter
      (fun c2 => c2.userId == some "A" && decide (c2.id ≠ i)) = aConns F := by
  rw [List.filter_cons]
  rw [if_neg (show ¬((obsConn.userId == some "A" && decide (obsConn.id ≠ i)) = true) by
    simp [obsConn])]
  apply List.filter_eq_self.mpr
  intro a ha
  obtain ⟨j, hj, he⟩ := mem_aConns a F ha
  subst he
  simp [aConn, hF j hj]

-- A disconnect of one of several live connections of user A: the handler
-- returns early with no event and no user write.
theorem disc_step_keep (now i : Nat) (l : List Nat) (users : List (String × UserRec))
    (hmem : i ∈ l) (h0 : 0 ∉ l)
    (hne : l.filter (fun j => decide (j ≠ i)) ≠ []) :
    disconnectHandler (presenceState l users) i now =
      (presenceState (l.filter (fun j => decide (j ≠ i))) users, []) := by
  have hi0 : i ≠ 0 := fun he => h0 (he ▸ hmem)
  have hfind := find?_presence l i hmem h0
  have hconns2 : (obsConn :: aConns l).filter (fun c2 => decide (c2.id ≠ i)) =
      obsConn :: aConns (l.filter (fun j => decide (j ≠ i))) := by
    rw [List.filter_cons,
      if_pos (show decide (obsConn.id ≠ i) = true by simp [obsConn, Ne.symm hi0]),
      aConns_filter_ne]
  have hrem := remaining_filter (l.filter (fun j => decide (j ≠ i))) i
    (fun j hj => by simpa using (List.mem_filter.mp hj).2)
  have hlen : 0 < (aConns (l.filter (fun j => decide (j ≠ i)))).length := by
    rw [aConns_length]
    exact List.length_pos.mpr hne
  simp only [disconnectHandler, presenceState, hfind, aConn, hconns2]
  rw [if_pos (show jsTruthy (some "A") = true from by decide)]
  rw [hrem, if_pos hlen]

-- The disconnect of the last live connection of user A: the user document
-- goes offline and the offline event reaches every remaining socket.
theorem disc_step_last (now i : Nat) (l : List Nat) (users : List (String × UserRec))
    (hmem : i ∈ l) (h0 : 0 ∉ l)
    (hnil : l.filter (fun j => decide (j ≠ i)) = []) :
    disconnectHandler (presenceState l users) i now =
      (presenceState [] (userUpdate users "A" false now false),
       [⟨.presence_update "A" false, [0]⟩]) := by
  have hi0 : i ≠ 0 := fun he => h0 (he ▸ hmem)
  have hfind := find?_presence l i hmem h0
  have hconns2 : (obsConn :: aConns l).filter (fun c2 => decide (c2.id ≠ i)) =
      obsConn :: aConns (l.filter (fun j => decide (j ≠ i))) := by
    rw [List.filter_cons,
      if_pos (show decide (obsConn.id ≠ i) = true by simp [obsConn, Ne.symm hi0]),
      aConns_filter_ne]
  have hrem := remaining_filter (l.filter (fun j => decide (j ≠ i))) i
    (fun j hj => by simpa using (List.mem_filter.mp hj).2)
  simp only [disconnectHandler, presenceState, hfind, aConn, hconns2]
  rw [if_pos (show jsTruthy (some "A") = true from by decide)]
  rw [hrem, hnil]
  show (if (aConns ([] : List Nat)).length > 0 then _ else _) = _
  rw [if_neg (by simp [aConns])]
  rfl

theorem runFrom_append (now : Nat) (s : ServerState) (ops1 ops2 : List Op) :
    runFrom now s (ops1 ++ ops2) =
      ((runFrom now (runFrom now s ops1).1 ops2).1,
       (runFrom now s ops1).2 ++ (runFrom now (runFrom now s ops1).1 ops2).2) := by
  induction ops1 generalizing s with
  | nil => rfl
  | cons op rest ih =>
    show runFrom now s (op :: (rest ++ ops2)) = _
    rw [runFrom_cons now s op (rest ++ ops2), ih, runFrom_cons now s op rest]
    simp [List.append_assoc]

theorem countTo_join_trace_onA (done : List Nat) (i : Nat) :
    countTo [⟨.presence_update "A" true, 0 :: done⟩, ⟨.presence_update "B" true, [i]⟩] 0
      (.presence_update "A" true) = 1 := by
  simp [countTo, List.countP_cons, List.mem_cons]

theorem countTo_join_trace_offA (done : List Nat) (i : Nat) :
    countTo [⟨.presence_update "A" true, 0 :: done⟩, ⟨.presence_update "B" true, [i]⟩] 0
      (.presence_update "A" false) = 0 := by
  simp [countTo, List.countP_cons, List.mem_cons]

-- Every join of user A delivers exactly one online event to the observer,
-- and no offline event is produced during the join phase.
theorem runJoins (now : Nat) (js : List Nat) : ∀ (done : List Nat) (users : List (String × UserRec)),
    (done ++ js).Nodup → 0 ∉ done → 0 ∉ js →
    ∃ users2,
      (runFrom now (presenceState done users) (joinOps js)).1 =
        presenceState (done ++ js) users2 ∧
      countTo (runFrom now (presenceState done users) (joinOps js)).2 0
        (.presence_update "A" true) = js.length ∧
      countTo (runFrom now (presenceState done users) (joinOps js)).2 0
        (.presence_update "A" false) = 0 := by
  induction js with
  | nil =>
    intro done users _ _ _
    refine ⟨users, ?_, rfl, rfl⟩
    show (presenceState done users, ([] : List TEv)).1 = presenceState (done ++ []) users
    rw [List.append_nil]
  | cons i rest ih =>
    intro done users hnd h0d h0j
    have hi0 : i ≠ 0 := fun he => h0j (he ▸ List.mem_cons_self i rest)
    have h0rest : (0 : Nat) ∉ rest := fun hm => h0j (List.mem_cons_of_mem i hm)
    have hdisj := List.disjoint_of_nodup_append hnd
    have hdone : i ∉ done := fun hm => hdisj hm (List.mem_cons_self i rest)
    have hnd' : ((done ++ [i]) ++ rest).Nodup := by
      rw [List.append_assoc]
      exact hnd
    have h0d' : (0 : Nat) ∉ done ++ [i] := by
      intro hm
      rcases List.mem_append.mp hm with h | h
      · exact h0d h
      · exact hi0 (List.mem_singleton.mp h).symm
    obtain ⟨users2, hst, hcT, hcF⟩ :=
      ih (done ++ [i]) (userUpdate users "A" true now true) hnd' h0d' h0rest
    have hjoin := connect_join_step now i done users hi0 hdone
    have hrun : runFrom now (presenceState done users) (joinOps (i :: rest)) =
        ((runFrom now (presenceState (done ++ [i]) (userUpdate users "A" true now true))
            (joinOps rest)).1,
         [] ++ ([⟨.presence_update "A" true, 0 :: done⟩, ⟨.presence_update "B" true, [i]⟩] ++
           (runFrom now (presenceState (done ++ [i]) (userUpdate users "A" true now true))
             (joinOps rest)).2)) := by
      show runFrom now (presenceState done users)
          (Op.connect i :: Op.join i "A" "r1" :: joinOps rest) = _
      rw [runFrom_cons, runFrom_cons]
      simp only [step]
      rw [hjoin]
    refine ⟨users2, ?_, ?_, ?_⟩
    · rw [hrun]
      show (runFrom now (presenceState (done ++ [i]) (userUpdate users "A" true now true))
          (joinOps rest)).1 = presenceState (done ++ i :: rest) users2
      rw [hst, List.append_assoc]
      rfl
    · rw [hrun]
      show countTo ([⟨.presence_update "A" true, 0 :: done⟩,
          ⟨.presence_update "B" true, [i]⟩] ++
          (runFrom now (presenceState (done ++ [i]) (userUpdate users "A" true now true))
            (joinOps rest)).2) 0 (.presence_update "A" true) = (i :: rest).length
      rw [countTo_append, countTo_join_trace_onA, hcT, List.length_cons]
      omega
    · rw [hrun]
      show countTo ([⟨.presence_update "A" true, 0 :: done⟩,
          ⟨.presence_update "B" true, [i]⟩] ++
          (runFrom now (presenceState (done ++ [i]) (userUpdate users "A" true now true))
            (joinOps rest)).2) 0 (.presence_update "A" false) = 0
      rw [countTo_append, countTo_join_trace_offA, hcF]

-- Disconnecting every connection of user A, in any order, delivers exactly
-- one offline event to the observer, at the last disconnect, and no online
-- event.
theorem runDisconnects (now : Nat) (ds : List Nat) : ∀ (l : List Nat) (users : List (String × UserRec)),
    ds ≠ [] → ds.Perm l → l.Nodup → 0 ∉ l →
    countTo (runFrom now (presenceState l users) (ds.map Op.disconnect)).2 0
      (.presence_update "A" true) = 0 ∧
    countTo (runFrom now (presenceState l users) (ds.map Op.disconnect)).2 0
      (.presence_update "A" false) = 1 := by
  induction ds with
  | nil => intro l users hne; exact absurd rfl hne
  | cons i rest ih =>
    intro l users hne hperm hnd h0
    have hmem : i ∈ l := hperm.mem_iff.mp (List.mem_cons_self i rest)
    cases rest with
    | nil =>
      have hl : l = [i] := List.perm_singleton.mp hperm.symm
      subst hl
      have hnil : [i].filter (fun j => decide (j ≠ i)) = [] := by simp
      have hlast := disc_step_last now i [i] users hmem h0 hnil
      rw [List.map_cons, List.map_nil, runFrom_cons]
      simp only [step]
      rw [hlast]
      show countTo ([⟨.presence_update "A" false, [0]⟩] ++ ([] : List TEv)) 0
          (.presence_update "A" true) = 0 ∧
        countTo ([⟨.presence_update "A" false, [0]⟩] ++ ([] : List TEv)) 0
          (.presence_update "A" false) = 1
      constructor <;> decide
    | cons i2 rest2 =>
      have hndds : (i :: i2 :: rest2).Nodup := hperm.symm.nodup hnd
      have hi2 : i2 ≠ i := by
        have hni := (List.nodup_cons.mp hndds).1
        exact fun he => hni (he ▸ List.mem_cons_self i2 rest2)
      have hi2l : i2 ∈ l :=
        hperm.mem_iff.mp (List.mem_cons_of_mem i (List.mem_cons_self i2 rest2))
      have hne2 : l.filter (fun j => decide (j ≠ i)) ≠ [] :=
        List.ne_nil_of_mem (List.mem_filter.mpr ⟨hi2l, by simp [hi2]⟩)
      have hkeep := disc_step_keep now i l users hmem h0 hne2
      have hpermF : (i2 :: rest2).Perm (l.filter (fun j => decide (j ≠ i))) := by
        have h2 : (i :: i2 :: rest2).Perm (i :: l.erase i) :=
          hperm.trans (List.perm_cons_erase hmem)
        have h3 := h2.cons_inv
        have herase : l.erase i = l.filter (fun j => decide (j ≠ i)) := by
          rw [hnd.erase_eq_filter i]
          exact List.filter_congr (fun a ha => by by_cases hq : a = i <;> simp [hq])
        rwa [herase] at h3
      have hndF : (l.filter (fun j => decide (j ≠ i))).Nodup := hnd.filter _
      have h0F : (0 : Nat) ∉ l.filter (fun j => decide (j ≠ i)) :=
        fun hm => h0 (List.mem_filter.mp hm).1
      obtain ⟨ihT, ihF⟩ := ih (l.filter (fun j => decide (j ≠ i))) users
        (by simp) hpermF hndF h0F
      rw [List.map_cons, runFrom_cons]
      simp only [step]
      rw [hkeep]
      exact ⟨ihT, ihF⟩

/-- C2 counterexample: user A joins room r1 with connections 1 and 2 and
then both disconnect, watched by the observer connection 0; the observer
receives two presence_update{A, online} events, one per join, not exactly
one as the claim states (the join handler broadcasts unconditionally). -/
theorem C2_counterexample_duplicate_online :
    countTo (presenceRun [1, 2] [1, 2] [] 7).2 0 (.presence_update "A" true) = 2 ∧
    ¬ countTo (presenceRun [1, 2] [1, 2] [] 7).2 0 (.presence_update "A" true) = 1 := by
  decide

/-- C2 (amended): for N joins of the same user followed by the N matching
disconnects in any order (N at least 2), a room observer receives exactly
one presence_update{online} PER JOIN (N in total, the join broadcast is not
deduplicated) and exactly one presence_update{offline}, emitted at the last
disconnect only. -/
theorem C2_n_online_one_offline (js ds : List Nat) (users : List (String × UserRec))
    (now : Nat) (hnd : js.Nodup) (hperm : ds.Perm js) (h0 : (0 : Nat) ∉ js)
    (hN : 2 ≤ js.length) :
    countTo (presenceRun js ds users now).2 0 (.presence_update "A" true) = js.length ∧
    countTo (presenceRun js ds users now).2 0 (.presence_update "A" false) = 1 := by
  unfold presenceRun
  rw [runFrom_append now (presenceState [] users) (joinOps js) (ds.map Op.disconnect)]
  obtain ⟨users2, hst, hjT, hjF⟩ := runJoins now js [] users (by simpa using hnd)
    (by simp) h0
  have hds_ne : ds ≠ [] := by
    intro he
    subst he
    have hlen := hperm.length_eq
    simp at hlen
    omega
  have hst' : (runFrom now (presenceState [] users) (joinOps js)).1 =
      presenceState js users2 := hst
  rw [hst']
  obtain ⟨hdT, hdF⟩ := runDisconnects now ds js users2 hds_ne hperm hnd h0
  constructor
  · show countTo ((runFrom now (presenceState [] users) (joinOps js)).2 ++
      (runFrom now (presenceState js users2) (ds.map Op.disconnect)).2) 0
      (.presence_update "A" true) = js.length
    rw [countTo_append, hjT, hdT]
    omega
  · show countTo ((runFrom now (presenceState [] users) (joinOps js)).2 ++
      (runFrom now (presenceState js users2) (ds.map Op.disconnect)).2) 0
      (.presence_update "A" false) = 1
    rw [countTo_append, hjF, hdF]

/-- Witness for C2 (amended): two joins of user A (connections 1 and 2)
then the two disconnects in reverse order give the observer two online
events and one offline event. -/
theorem C2_n_online_one_offline_witness :
    countTo (presenceRun [1, 2] [2, 1] [] 7).2 0 (.presence_update "A" true) = 2 ∧
    countTo (presenceRun [1, 2] [2, 1] [] 7).2 0 (.presence_update "A" false) = 1 := by
  have h := C2_n_online_one_offline [1, 2] [2, 1] [] 7 (by decide)
    (by decide) (by decide) (by decide)
  simpa using h

end ChatServer
